import Mathlib

/-!
# Time Diet — verification of the notification engine

Shallow embedding of the notification-scheduling core of the `time-diet`
repository: the notification-set deriver (`src/utils/notifications.ts`,
`scheduleBlockNotifications`), the store mutation path
(`src/store/index.ts`, `updateBlockStatus` / `snoozeBlock`), the
rescheduling coordinator effect (`src/hooks/useNotifications.ts`, final
iteration) and the time helpers (`src/utils/time.ts`).

Timestamps are modelled as integers (milliseconds of the local clock, the
value of JS `Date.prototype.getTime`); JS `Date` comparison and arithmetic
on such values is exact integer arithmetic, which the model mirrors.
-/

namespace TimeDiet

/-- A point in time: milliseconds on the local clock (JS `Date.getTime()`). -/
abbrev Time := Int

/-- `BlockStatus` from `types/index.ts`: `'planned' | 'completed' | 'skipped'`. -/
inductive BlockStatus where
  | planned
  | completed
  | skipped
deriving DecidableEq, Repr

/-- `TimeBlockInstance` from `types/index.ts`.  The source field `end` is a
Lean keyword and is rendered here as `endTime`; optional TS fields become
`Option`. -/
structure TimeBlockInstance where
  id : String
  blockRefId : Option String
  title : String
  categoryId : String
  start : Time
  endTime : Time
  status : BlockStatus
  completedAt : Option Time
  description : Option String
deriving DecidableEq, Repr

/-- The `notificationType` union from `types/index.ts`:
`'early-warning' | 'block-start' | 'block-end' | 'default'`. -/
inductive NotificationType where
  | earlyWarning
  | blockStart
  | blockEnd
  | defaultType
deriving DecidableEq, Repr

/-- `NotificationQueue` from `types/index.ts`.  The optional boolean
`isEarlyWarning?` is modelled as a `Bool` (`false` = absent, matching how the
consumers read it: `notif.isEarlyWarning || false`).  The deriver sets
`notificationType` on every intent it creates, so the field is kept plain. -/
structure NotificationQueue where
  id : String
  blockId : String
  scheduledTime : Time
  title : String
  body : String
  isEarlyWarning : Bool
  date : Option String
  notificationType : NotificationType
deriving DecidableEq, Repr

/-- Two-digit zero-padded decimal numeral: the `addLeadingZeros(n, 2)` used by
date-fns for the `HH` and `mm` tokens, for `n < 100`. -/
def pad2 (n : Nat) : String :=
  ⟨[Char.ofNat (48 + n / 10), Char.ofNat (48 + n % 10)]⟩

/-- Hour-of-day of a local-clock timestamp (`Date.prototype.getHours`). -/
def hoursOfMs (t : Time) : Nat := ((t.ediv 3600000).emod 24).toNat

/-- Minute-of-hour of a local-clock timestamp (`Date.prototype.getMinutes`). -/
def minutesOfMs (t : Time) : Nat := ((t.ediv 60000).emod 60).toNat

/-- date-fns `format(t, 'HH:mm')` on the local clock. -/
def formatHHmm (t : Time) : String :=
  pad2 (hoursOfMs t) ++ ":" ++ pad2 (minutesOfMs t)

/-- The Smart-Merge wrap-up intent (`src/utils/notifications.ts:123-132`):
scheduled `earlyWarningMinutes` before the end of `block`, previewing
`nextBlock`. -/
def mkWrap (earlyWarningMinutes : Int) (date : Option String)
    (block nextBlock : TimeBlockInstance) : NotificationQueue :=
  { id := "block-wrap-" ++ block.id
    blockId := block.id
    scheduledTime := block.endTime - earlyWarningMinutes * 60000
    title := "Wrap up: " ++ block.title
    body := "Next: " ++ nextBlock.title ++ " in " ++
      toString earlyWarningMinutes ++ " minutes"
    isEarlyWarning := true
    date := date
    notificationType := .earlyWarning }

/-- The block-start intent (`src/utils/notifications.ts:141-149`, `190-198` and
`203-211` build exactly this record for the block being started). -/
def mkStart (date : Option String) (blk : TimeBlockInstance) :
    NotificationQueue :=
  { id := "block-start-" ++ blk.id
    blockId := blk.id
    scheduledTime := blk.start
    title := "Time for: " ++ blk.title
    body := "Starting now until " ++ formatHHmm blk.endTime
    isEarlyWarning := false
    date := date
    notificationType := .blockStart }

/-- The block-end intent (`src/utils/notifications.ts:160-168`). -/
def mkEnd (date : Option String) (block : TimeBlockInstance) :
    NotificationQueue :=
  { id := "block-end-" ++ block.id
    blockId := block.id
    scheduledTime := block.endTime
    title := "How did it go?"
    body := block.title ++ " - Mark as complete or skipped"
    isEarlyWarning := false
    date := date
    notificationType := .blockEnd }

/-- The early-warning intent for a non-contiguous successor
(`src/utils/notifications.ts:175-184`). -/
def mkWarning (earlyWarningMinutes : Int) (date : Option String)
    (nextBlock : TimeBlockInstance) : NotificationQueue :=
  { id := "block-warning-" ++ nextBlock.id
    blockId := nextBlock.id
    scheduledTime := nextBlock.start - earlyWarningMinutes * 60000
    title := "Coming up: " ++ nextBlock.title
    body := "Starting in " ++ toString earlyWarningMinutes ++ " minutes"
    isEarlyWarning := true
    date := date
    notificationType := .earlyWarning }

/-- Per-block body of the `blocks.forEach` loop of `scheduleBlockNotifications`
(`src/utils/notifications.ts:96-214`).  `next` is `blocks[index + 1]`
(`none` when the block is last).  Mirrors the source branch for branch:
skip past blocks (`block.end <= now`); Smart-Merge for contiguous blocks with
early warning enabled and `isFutureBlock = block.start > now`; the full
end/warning/start set for non-contiguous blocks; a bare start notification
for contiguous future blocks without early warning.  When `next` is `none`,
`isContiguous` is falsy in the source, so the block takes the non-contiguous
branch, where only the block-end intent can fire (the warning and start
intents are guarded by `nextBlock &&`). -/
def notifyBlock (earlyWarningMinutes : Int) (date : Option String) (now : Time)
    (block : TimeBlockInstance) (next : Option TimeBlockInstance) :
    List NotificationQueue :=
  if block.endTime ≤ now then []
  else
    match next with
    | some nextBlock =>
      if block.endTime = nextBlock.start ∧ 0 < earlyWarningMinutes ∧
          now < block.start then
        (if now < block.endTime - earlyWarningMinutes * 60000 then
           [mkWrap earlyWarningMinutes date block nextBlock]
         else []) ++
        (if now < nextBlock.start then [mkStart date nextBlock] else [])
      else if ¬ block.endTime = nextBlock.start ∧ now < block.start then
        (if now < block.endTime then [mkEnd date block] else []) ++
        (if 0 < earlyWarningMinutes then
           if now < nextBlock.start - earlyWarningMinutes * 60000 then
             [mkWarning earlyWarningMinutes date nextBlock]
           else []
         else []) ++
        (if now < nextBlock.start then [mkStart date nextBlock] else [])
      else if now < block.start then
        if now < block.start then [mkStart date block] else []
      else []
    | none =>
      if now < block.start then
        if now < block.endTime then [mkEnd date block] else []
      else []

/-- Fold of `notifyBlock` over the block list, pairing each block with its
successor, exactly as `blocks.forEach((block, index) => …)` reads
`blocks[index + 1]`. -/
def scheduleAux (earlyWarningMinutes : Int) (date : Option String) (now : Time) :
    List TimeBlockInstance → List NotificationQueue
  | [] => []
  | b :: rest =>
      notifyBlock earlyWarningMinutes date now b rest.head? ++
        scheduleAux earlyWarningMinutes date now rest

/-- `scheduleBlockNotifications` (`src/utils/notifications.ts:81-222`), with
the single `const now = new Date()` sampled at entry made an explicit
parameter. -/
def scheduleBlockNotifications (blocks : List TimeBlockInstance)
    (earlyWarningMinutes : Int) (date : Option String) (now : Time) :
    List NotificationQueue :=
  scheduleAux earlyWarningMinutes date now blocks

/-- Wall-clock helper for concrete test inputs: `h` hours `m` minutes on the
epoch day, in milliseconds. -/
def hm (h m : Nat) : Time := ((h * 60 + m) * 60000 : Nat)

/-! ## Store mutation path (`src/store/index.ts`) -/

/-- `DaySchedule` from `types/index.ts`. -/
structure DaySchedule where
  id : String
  date : String
  blocks : List TimeBlockInstance
  templateId : Option String
deriving DecidableEq, Repr

/-- `updateBlockStatus` (`src/store/index.ts:330-352`), as the pure update it
performs on the loaded schedule before handing it to `updateSchedule` for
persistence: every block whose id matches gets the new status and
`completedAt: status === 'completed' ? new Date() : undefined`; every other
block is kept.  The source call `new Date()` is the explicit `now`.  The
function takes no date parameter and performs no lookup failure: a missing
`blockId` simply leaves the mapped list unchanged. -/
def updateBlockStatus (schedule : DaySchedule) (blockId : String)
    (status : BlockStatus) (now : Time) : DaySchedule :=
  { schedule with
    blocks := schedule.blocks.map fun block =>
      if block.id = blockId then
        { block with
          status := status
          completedAt := if status = BlockStatus.completed then some now else none }
      else block }

/-- `snoozeBlock` (`src/store/index.ts:414-433`), as the pure update on the
loaded schedule: the matching block's `start` and `end` are both moved by
`minutes * 60000` milliseconds, every other field and block is kept. -/
def snoozeBlock (schedule : DaySchedule) (blockId : String) (minutes : Int) :
    DaySchedule :=
  { schedule with
    blocks := schedule.blocks.map fun block =>
      if block.id = blockId then
        { block with
          start := block.start + minutes * 60000
          endTime := block.endTime + minutes * 60000 }
      else block }

/-! ## Rescheduling coordinator (`src/hooks/useNotifications.ts`, final iteration)

The scheduling `useEffect` with dependencies
`[currentSchedule, settings.notificationsEnabled, settings.earlyWarningMinutes]`.
Its body holds the today-guard, a fingerprint (`scheduleKey`) dedupe, a
1-second debounce, and the full cancel-and-reschedule protocol; it returns a
cleanup function only when it reaches the protocol (every earlier `return;`
returns `undefined`, so no cleanup is registered on those paths).  React runs
the previously registered cleanup before re-running the effect with changed
dependencies. -/

/-- The subset of `Settings` the scheduling effect reads. -/
structure HookSettings where
  notificationsEnabled : Bool
  earlyWarningMinutes : Int
deriving DecidableEq, Repr

/-- Externally visible operations the effect performs, in program order:
local timeout cancellation, delivery-adapter cancellation
(`clearScheduledPushNotifications`), clearing the persisted intent record
(`clearNotifications`), persisting one intent (`saveNotification`), and the
delivery-adapter batch handoff (`scheduleNotificationsPush`, modelled on its
success path). -/
inductive AdapterCall where
  | clearLocalTimeouts
  | clearPushScheduled
  | clearStoreNotifications
  | persistIntent (n : NotificationQueue)
  | schedulePushBatch (ns : List NotificationQueue)
deriving DecidableEq, Repr

/-- The hook's refs: `lastScheduledDate`, `schedulingInProgress`,
`lastScheduleTime`. -/
structure EffectRefs where
  lastScheduledDate : Option String
  schedulingInProgress : Bool
  lastScheduleTime : Time
deriving DecidableEq, Repr

/-- Initial ref values (`useRef(null)`, `useRef(false)`, `useRef(0)`). -/
def initialRefs : EffectRefs := ⟨none, false, 0⟩

/-- `` `${currentSchedule.date}-${currentSchedule.blocks.length}-${settings.earlyWarningMinutes}` ``. -/
def scheduleKey (sched : DaySchedule) (earlyWarningMinutes : Int) : String :=
  sched.date ++ "-" ++ toString sched.blocks.length ++ "-" ++
    toString earlyWarningMinutes

/-- The calls performed by the effect's cleanup
(`useNotifications.ts:144-151`): clear local timeouts, clear the
delivery-adapter schedule, clear the persisted intent record. -/
def effectCleanupCalls : List AdapterCall :=
  [.clearLocalTimeouts, .clearPushScheduled, .clearStoreNotifications]

/-- Ref updates performed by the cleanup (`lastScheduledDate.current = null;
schedulingInProgress.current = false`). -/
def effectCleanupRefs (r : EffectRefs) : EffectRefs :=
  { r with lastScheduledDate := none, schedulingInProgress := false }

/-- One run of the scheduling effect body (`useNotifications.ts:59-142`) with
its async continuation run to completion on the success path of the push
batch call.  Returns the updated refs, the externally visible calls in
order, and whether a cleanup function was registered (the body reaches its
`return () => {…}` only on the full-protocol path). -/
def notifyEffectBody (settings : HookSettings)
    (currentSchedule : Option DaySchedule) (today : String) (now : Time)
    (refs : EffectRefs) : EffectRefs × List AdapterCall × Bool :=
  if ¬ settings.notificationsEnabled then (refs, [], false)
  else
    match currentSchedule with
    | none => (refs, [], false)
    | some sched =>
      -- CRITICAL today-guard (`useNotifications.ts:64-70`)
      if sched.date ≠ today then (refs, [], false)
      else if refs.schedulingInProgress then (refs, [], false)
      else if refs.lastScheduledDate =
          some (scheduleKey sched settings.earlyWarningMinutes) then
        (refs, [], false)
      else if now - refs.lastScheduleTime < 1000 then (refs, [], false)
      else
        let intents := scheduleBlockNotifications sched.blocks
          settings.earlyWarningMinutes (some sched.date) now
        ({ lastScheduledDate := some (scheduleKey sched settings.earlyWarningMinutes)
           schedulingInProgress := false
           lastScheduleTime := now },
         [.clearLocalTimeouts, .clearPushScheduled, .clearStoreNotifications] ++
           intents.map .persistIntent ++ [.schedulePushBatch intents],
         true)

/-- Hook state across renders: the refs plus whether the last effect run
registered a cleanup. -/
structure HookState where
  refs : EffectRefs
  hasCleanup : Bool
deriving DecidableEq, Repr

/-- State at mount. -/
def initialHookState : HookState := ⟨initialRefs, false⟩

/-- One React re-render in which the effect's dependencies changed: React
first runs the cleanup registered by the previous run (if any), then runs
the body. -/
def notifyEffectStep (st : HookState) (settings : HookSettings)
    (currentSchedule : Option DaySchedule) (today : String) (now : Time) :
    HookState × List AdapterCall :=
  let refs0 := if st.hasCleanup then effectCleanupRefs st.refs else st.refs
  let pre := if st.hasCleanup then effectCleanupCalls else []
  let out := notifyEffectBody settings currentSchedule today now refs0
  (⟨out.1, out.2.2⟩, pre ++ out.2.1)

/-! ## Time utilities (`src/utils/time.ts`)

Modelled over a DST-free local clock: timestamps are nonnegative
milliseconds, calendar days are the `86400000`-blocks. -/

/-- Nonnegative local-clock milliseconds. -/
abbrev LocalMs := Nat

/-- Character-level model of JS `String.prototype.split` with a one-character
separator: the (always nonempty) list of separator-free chunks. -/
def splitOnCharJs (sep : Char) : List Char → List (List Char)
  | [] => [[]]
  | c :: cs =>
    if c = sep then [] :: splitOnCharJs sep cs
    else
      match splitOnCharJs sep cs with
      | [] => [[c]]
      | part :: parts => (c :: part) :: parts

/-- JS `Number(s)` restricted to nonempty all-digit strings — the only inputs
the time utilities feed it (the `HH` and `mm` pieces of an `HH:mm` string). -/
def jsNumberDigits (s : String) : Nat :=
  s.data.foldl (fun acc c => acc * 10 + (c.toNat - 48)) 0

/-- `Date.prototype.getHours` on the local clock. -/
def getHours (t : LocalMs) : Nat := t / 3600000 % 24

/-- `Date.prototype.getMinutes` on the local clock. -/
def getMinutes (t : LocalMs) : Nat := t / 60000 % 60

/-- `d.setHours(h, m, 0, 0)`: keep the calendar day of `d`, replace the
wall-clock time of day with `h` hours `m` minutes exactly (seconds and
milliseconds zero). -/
def setHoursMs (d : LocalMs) (h m : Nat) : LocalMs :=
  (d - d % 86400000) + h * 3600000 + m * 60000

/-- `timeStringToDate` (`src/utils/time.ts:6-11`):
`const [hours, minutes] = timeStr.split(':').map(Number); result.setHours(hours, minutes, 0, 0)`. -/
def timeStringToDate (timeStr : String) (date : LocalMs) : LocalMs :=
  let parts := (splitOnCharJs ':' timeStr.data).map fun l => jsNumberDigits ⟨l⟩
  setHoursMs date (parts.getD 0 0) (parts.getD 1 0)

/-- `dateToTimeString` (`src/utils/time.ts:16-18`): date-fns
`format(date, 'HH:mm')`. -/
def dateToTimeString (t : LocalMs) : String :=
  pad2 (getHours t) ++ ":" ++ pad2 (getMinutes t)

/-! ## Concrete test inputs -/

/-- Block `A(09:00–09:50)` of the contiguous example. -/
def blockA : TimeBlockInstance :=
  ⟨"A", none, "A", "cat", hm 9 0, hm 9 50, .planned, none, none⟩

/-- Block `B(09:50–10:40)`, contiguous with `blockA`. -/
def blockB : TimeBlockInstance :=
  ⟨"B", none, "B", "cat", hm 9 50, hm 10 40, .planned, none, none⟩

/-- Block `C(10:00–10:50)`, leaving a 10-minute gap after `blockA`. -/
def blockC : TimeBlockInstance :=
  ⟨"C", none, "C", "cat", hm 10 0, hm 10 50, .planned, none, none⟩

/-- Block `D(10:50–11:40)`, contiguous with `blockC`. -/
def blockD : TimeBlockInstance :=
  ⟨"D", none, "D", "cat", hm 10 50, hm 11 40, .planned, none, none⟩

/-- A one-block schedule for `2024-06-01`. -/
def todaySchedule : DaySchedule :=
  ⟨"schedule-2024-06-01", "2024-06-01", [blockA], none⟩

/-- A schedule dated five months earlier, `2024-01-01`. -/
def pastSchedule : DaySchedule :=
  ⟨"schedule-2024-01-01", "2024-01-01", [], none⟩

/-- Hook settings: notifications on, 5-minute lead. -/
def hookSettings : HookSettings := ⟨true, 5⟩

/-- Hook state after the effect has run for today's schedule at `08:00`
(mount, then dependencies set to today's schedule). -/
def stateAfterTodayRun : HookState :=
  (notifyEffectStep initialHookState hookSettings (some todaySchedule)
    "2024-06-01" (hm 8 0)).1

/-- The four id prefixes the deriver stamps onto intent ids, numbered:
`0` wrap, `1` end (minted from a block's own id), `2` start, `3` warning
(minted from the successor's id). -/
def tagPrefix (t : Nat) : String :=
  if t = 0 then "block-wrap-"
  else if t = 1 then "block-end-"
  else if t = 2 then "block-start-"
  else "block-warning-"

/-- The wrap-up intent derived for `blockA` in the contiguous example. -/
def wrapIntentA : NotificationQueue :=
  { id := "block-wrap-A", blockId := "A", scheduledTime := hm 9 45,
    title := "Wrap up: A", body := "Next: B in 5 minutes",
    isEarlyWarning := true, date := some "2024-06-01",
    notificationType := .earlyWarning }

/-! ## Theorems -/

/-- Membership in a guarded singleton yields the guard and the value. -/
theorem mem_ite_singleton {α : Type} {c : Prop} [Decidable c] {x n : α}
    (h : n ∈ (if c then [x] else [])) : c ∧ n = x := by
  split at h
  · exact ⟨by assumption, by simpa using h⟩
  · simp at h

/-- Every intent a single loop iteration emits is scheduled strictly after
`now`: each of the four construction sites sits under its own freshness
guard. -/
theorem mem_notifyBlock_now_lt (lead : Int) (date : Option String) (now : Time)
    (b : TimeBlockInstance) (next : Option TimeBlockInstance)
    {n : NotificationQueue} (hn : n ∈ notifyBlock lead date now b next) :
    now < n.scheduledTime := by
  rcases next with _ | nb <;> simp only [notifyBlock] at hn
  · split at hn
    · simp at hn
    · split at hn
      · obtain ⟨hg, rfl⟩ := mem_ite_singleton hn
        simpa [mkEnd] using hg
      · simp at hn
  · split at hn
    · simp at hn
    · split at hn
      · rcases List.mem_append.mp hn with h | h
        · obtain ⟨hg, rfl⟩ := mem_ite_singleton h
          simpa [mkWrap] using hg
        · obtain ⟨hg, rfl⟩ := mem_ite_singleton h
          simpa [mkStart] using hg
      · split at hn
        · rcases List.mem_append.mp hn with h | h
          · rcases List.mem_append.mp h with h' | h'
            · obtain ⟨hg, rfl⟩ := mem_ite_singleton h'
              simpa [mkEnd] using hg
            · split at h'
              · obtain ⟨hg, rfl⟩ := mem_ite_singleton h'
                simpa [mkWarning] using hg
              · simp at h'
          · obtain ⟨hg, rfl⟩ := mem_ite_singleton h
            simpa [mkStart] using hg
        · split at hn
          · rename_i hlt
            simp only [List.mem_singleton] at hn
            subst hn
            simpa [mkStart] using hlt
          · simp at hn

/-- Lifting of `mem_notifyBlock_now_lt` over the whole block list. -/
theorem mem_scheduleAux_now_lt (lead : Int) (date : Option String) (now : Time)
    (blocks : List TimeBlockInstance) {n : NotificationQueue}
    (hn : n ∈ scheduleAux lead date now blocks) : now < n.scheduledTime := by
  induction blocks with
  | nil => simp [scheduleAux] at hn
  | cons b rest ih =>
    rw [scheduleAux, List.mem_append] at hn
    rcases hn with hn | hn
    · exact mem_notifyBlock_now_lt lead date now b rest.head? hn
    · exact ih hn

/-- Claim C1, as stated, is false on the code: for the contiguous pair
`A(09:00–09:50)`, `B(09:50–10:40)` with lead 5 and `now = 08:00`, the deriver
returns three intents, not two — the final block `B`, having no successor,
takes the non-contiguous branch and receives its own block-end intent. -/
theorem claim1_counterexample :
    ¬ (scheduleBlockNotifications [blockA, blockB] 5 (some "2024-06-01")
        (hm 8 0)).length = 2 := by
  decide

/-- Claim C1 amended: the derivation returns exactly three intents — the
wrap-up at 09:45 targeting `A`, the block-start at 09:50 targeting `B`
(so no block-end for `A`), plus a block-end for `B` at 10:40. -/
theorem claim1_amended :
    scheduleBlockNotifications [blockA, blockB] 5 (some "2024-06-01") (hm 8 0) =
      [{ id := "block-wrap-A", blockId := "A", scheduledTime := hm 9 45,
         title := "Wrap up: A", body := "Next: B in 5 minutes",
         isEarlyWarning := true, date := some "2024-06-01",
         notificationType := .earlyWarning },
       { id := "block-start-B", blockId := "B", scheduledTime := hm 9 50,
         title := "Time for: B", body := "Starting now until 10:40",
         isEarlyWarning := false, date := some "2024-06-01",
         notificationType := .blockStart },
       { id := "block-end-B", blockId := "B", scheduledTime := hm 10 40,
         title := "How did it go?", body := "B - Mark as complete or skipped",
         isEarlyWarning := false, date := some "2024-06-01",
         notificationType := .blockEnd }] := by
  decide

/-- Claim C2, as stated, is false on the code: for `A(09:00–09:50)` and
`C(10:00–10:50)` with lead 5 and `now = 08:00` the deriver returns four
intents, not three — the final block `C` also receives its own block-end
intent at 10:50. -/
theorem claim2_counterexample :
    ¬ (scheduleBlockNotifications [blockA, blockC] 5 (some "2024-06-01")
        (hm 8 0)).length = 3 := by
  decide

/-- Claim C2 amended: the derivation returns exactly four intents — block-end
for `A` at 09:50, early-warning for `C` at 09:55, block-start for `C` at
10:00, plus a block-end for `C` at 10:50. -/
theorem claim2_amended :
    scheduleBlockNotifications [blockA, blockC] 5 (some "2024-06-01") (hm 8 0) =
      [{ id := "block-end-A", blockId := "A", scheduledTime := hm 9 50,
         title := "How did it go?", body := "A - Mark as complete or skipped",
         isEarlyWarning := false, date := some "2024-06-01",
         notificationType := .blockEnd },
       { id := "block-warning-C", blockId := "C", scheduledTime := hm 9 55,
         title := "Coming up: C", body := "Starting in 5 minutes",
         isEarlyWarning := true, date := some "2024-06-01",
         notificationType := .earlyWarning },
       { id := "block-start-C", blockId := "C", scheduledTime := hm 10 0,
         title := "Time for: C", body := "Starting now until 10:50",
         isEarlyWarning := false, date := some "2024-06-01",
         notificationType := .blockStart },
       { id := "block-end-C", blockId := "C", scheduledTime := hm 10 50,
         title := "How did it go?", body := "C - Mark as complete or skipped",
         isEarlyWarning := false, date := some "2024-06-01",
         notificationType := .blockEnd }] := by
  decide

/-- Claim C3: the effect body itself honours the today-guard, but the effect
run for today's schedule registers a cleanup, and React runs that cleanup as
soon as the dependencies change — so loading the `2024-01-01` schedule while
today is `2024-06-01` does cancel today's pending notifications (local
timeouts, the delivery-adapter schedule, and the persisted intent record),
contradicting the code's own comment that the guard prevents exactly this. -/
theorem claim3_failing_trace :
    stateAfterTodayRun.hasCleanup = true ∧
    (notifyEffectStep stateAfterTodayRun hookSettings (some pastSchedule)
        "2024-06-01" (hm 8 0 + 5000)).2 =
      [.clearLocalTimeouts, .clearPushScheduled, .clearStoreNotifications] ∧
    AdapterCall.clearPushScheduled ∈
      (notifyEffectStep stateAfterTodayRun hookSettings (some pastSchedule)
        "2024-06-01" (hm 8 0 + 5000)).2 := by
  refine ⟨by decide, by decide, by decide⟩

/-- Claim C5, as stated, is false on the code: a second
`updateBlockStatus(blockId, 'completed')` re-stamps `completedAt` with a fresh
`new Date()`, so a block completed at time 1000 and re-completed at time 2000
carries `completedAt = 2000`, not the first call's 1000. -/
theorem claim5_counterexample :
    ((updateBlockStatus
        (updateBlockStatus ⟨"schedule-d", "d", [blockA], none⟩ "A"
          .completed 1000)
        "A" .completed 2000).blocks.map (·.completedAt) = [some 2000]) ∧
      (2000 : Time) ≠ 1000 := by
  refine ⟨by decide, by decide⟩

/-- Claim C5 amended: applying Complete twice is absorbed by the second
application — the block ends `completed` with every other field unchanged,
and its `completedAt` is the second call's timestamp (so the double
application is a no-op in effect exactly when both calls carry the same
timestamp, and is never an error). -/
theorem claim5_amended (s : DaySchedule) (blockId : String) (t₁ t₂ : Time) :
    updateBlockStatus (updateBlockStatus s blockId .completed t₁) blockId
        .completed t₂ =
      updateBlockStatus s blockId .completed t₂ := by
  simp only [updateBlockStatus, List.map_map]
  refine congrArg (fun bs => { s with blocks := bs }) ?_
  refine List.map_congr_left fun block _ => ?_
  by_cases hb : block.id = blockId <;> simp [Function.comp, hb]

/-- Claim C6, as stated, is false on the code: `updateBlockStatus` takes no
date, reads only the currently loaded schedule, and when no block carries the
requested id it silently leaves the schedule unchanged — here completing the
absent id `"nope"` returns the input schedule itself, with no failure of any
kind (the function has no failure channel at all). -/
theorem claim6_counterexample :
    updateBlockStatus ⟨"schedule-d", "d", [blockA], none⟩ "nope" .completed 1000 =
      ⟨"schedule-d", "d", [blockA], none⟩ := by
  decide

/-- Claim C6 amended: when no block of the loaded schedule carries `blockId`,
the mutation path is a silent no-op — it returns the schedule unchanged (which
is then re-persisted as-is), and no `BlockNotFound` failure is surfaced. -/
theorem claim6_amended (s : DaySchedule) (blockId : String)
    (status : BlockStatus) (now : Time)
    (habsent : ∀ b ∈ s.blocks, b.id ≠ blockId) :
    updateBlockStatus s blockId status now = s := by
  have hmap : s.blocks.map (fun block =>
      if block.id = blockId then
        { block with
          status := status
          completedAt := if status = BlockStatus.completed then some now else none }
      else block) = s.blocks := by
    rw [List.map_congr_left fun b hb => if_neg (habsent b hb), List.map_id']
  simp only [updateBlockStatus, hmap]

/-- Witness for `claim6_amended` at a concrete schedule and absent id. -/
theorem claim6_amended_witness :
    updateBlockStatus ⟨"schedule-d", "d", [blockA], none⟩ "nope" .skipped 7 =
      ⟨"schedule-d", "d", [blockA], none⟩ :=
  claim6_amended ⟨"schedule-d", "d", [blockA], none⟩ "nope" .skipped 7
    (by decide)

/-- Claim C4: for every block list, lead, date and `now`, every intent
returned by `scheduleBlockNotifications` has `scheduledTime` strictly greater
than `now` — every construction site, including the two lead-subtracted ones,
re-checks its computed time against `now`. -/
theorem claim4_no_past_intents (blocks : List TimeBlockInstance) (lead : Int)
    (date : Option String) (now : Time) :
    ∀ n ∈ scheduleBlockNotifications blocks lead date now,
      now < n.scheduledTime :=
  fun _ hn => mem_scheduleAux_now_lt lead date now blocks hn

/-- Witness for `claim4_no_past_intents`: the 09:45 wrap-up intent of the
contiguous example is scheduled after `now = 08:00`. -/
theorem claim4_no_past_intents_witness : hm 8 0 < wrapIntentA.scheduledTime :=
  claim4_no_past_intents [blockA, blockB] 5 (some "2024-06-01") (hm 8 0)
    wrapIntentA (by decide)

/-- Claim C7: snoozing shifts exactly the matching block's `start` and `end`
forward by `minutes * 60000` ms (preserving its duration, status,
`completedAt`, id, title, category, description and template reference),
keeps every other block literally unchanged, and leaves the schedule's
identity, date and template id untouched. -/
theorem claim7_snooze_frame (s : DaySchedule) (blockId : String) (m : Int) :
    (snoozeBlock s blockId m).id = s.id ∧
    (snoozeBlock s blockId m).date = s.date ∧
    (snoozeBlock s blockId m).templateId = s.templateId ∧
    List.Forall₂ (fun b b' =>
      if b.id = blockId then
        b'.id = b.id ∧ b'.blockRefId = b.blockRefId ∧ b'.title = b.title ∧
        b'.categoryId = b.categoryId ∧ b'.status = b.status ∧
        b'.completedAt = b.completedAt ∧ b'.description = b.description ∧
        b'.start = b.start + m * 60000 ∧
        b'.endTime = b.endTime + m * 60000 ∧
        b'.endTime - b'.start = b.endTime - b.start
      else b' = b) s.blocks (snoozeBlock s blockId m).blocks := by
  refine ⟨rfl, rfl, rfl, ?_⟩
  simp only [snoozeBlock]
  rw [List.forall₂_map_right_iff, List.forall₂_same]
  intro b _
  by_cases h : b.id = blockId
  · simp [h]
    try omega
  · simp [h]

/-- Appending to the same front string is cancellative. -/
theorem string_append_left_cancel {p a b : String} (h : p ++ a = p ++ b) :
    a = b := by
  apply String.ext
  have h' := congrArg String.data h
  rw [String.data_append, String.data_append] at h'
  exact List.append_cancel_left h'

/-- No wrap id collides with an end id. -/
theorem id_wrap_ne_end (a b : String) :
    "block-wrap-" ++ a ≠ "block-end-" ++ b := by
  intro h
  have h' := congrArg String.data h
  rw [String.data_append, String.data_append] at h'
  have h₁ : "block-wrap-".data =
      ['b', 'l', 'o', 'c', 'k', '-', 'w', 'r', 'a', 'p', '-'] := rfl
  have h₂ : "block-end-".data =
      ['b', 'l', 'o', 'c', 'k', '-', 'e', 'n', 'd', '-'] := rfl
  rw [h₁, h₂] at h'
  simp only [List.cons_append, List.nil_append, List.cons.injEq] at h'
  exact absurd h'.2.2.2.2.2.2.1 (by decide)

/-- No wrap id collides with a start id. -/
theorem id_wrap_ne_start (a b : String) :
    "block-wrap-" ++ a ≠ "block-start-" ++ b := by
  intro h
  have h' := congrArg String.data h
  rw [String.data_append, String.data_append] at h'
  have h₁ : "block-wrap-".data =
      ['b', 'l', 'o', 'c', 'k', '-', 'w', 'r', 'a', 'p', '-'] := rfl
  have h₂ : "block-start-".data =
      ['b', 'l', 'o', 'c', 'k', '-', 's', 't', 'a', 'r', 't', '-'] := rfl
  rw [h₁, h₂] at h'
  simp only [List.cons_append, List.nil_append, List.cons.injEq] at h'
  exact absurd h'.2.2.2.2.2.2.1 (by decide)

/-- No wrap id collides with a warning id. -/
theorem id_wrap_ne_warning (a b : String) :
    "block-wrap-" ++ a ≠ "block-warning-" ++ b := by
  intro h
  have h' := congrArg String.data h
  rw [String.data_append, String.data_append] at h'
  have h₁ : "block-wrap-".data =
      ['b', 'l', 'o', 'c', 'k', '-', 'w', 'r', 'a', 'p', '-'] := rfl
  have h₂ : "block-warning-".data =
      ['b', 'l', 'o', 'c', 'k', '-', 'w', 'a', 'r', 'n', 'i', 'n', 'g', '-'] := rfl
  rw [h₁, h₂] at h'
  simp only [List.cons_append, List.nil_append, List.cons.injEq] at h'
  exact absurd h'.2.2.2.2.2.2.2.1 (by decide)

/-- No end id collides with a start id. -/
theorem id_end_ne_start (a b : String) :
    "block-end-" ++ a ≠ "block-start-" ++ b := by
  intro h
  have h' := congrArg String.data h
  rw [String.data_append, String.data_append] at h'
  have h₁ : "block-end-".data =
      ['b', 'l', 'o', 'c', 'k', '-', 'e', 'n', 'd', '-'] := rfl
  have h₂ : "block-start-".data =
      ['b', 'l', 'o', 'c', 'k', '-', 's', 't', 'a', 'r', 't', '-'] := rfl
  rw [h₁, h₂] at h'
  simp only [List.cons_append, List.nil_append, List.cons.injEq] at h'
  exact absurd h'.2.2.2.2.2.2.1 (by decide)

/-- No end id collides with a warning id. -/
theorem id_end_ne_warning (a b : String) :
    "block-end-" ++ a ≠ "block-warning-" ++ b := by
  intro h
  have h' := congrArg String.data h
  rw [String.data_append, String.data_append] at h'
  have h₁ : "block-end-".data =
      ['b', 'l', 'o', 'c', 'k', '-', 'e', 'n', 'd', '-'] := rfl
  have h₂ : "block-warning-".data =
      ['b', 'l', 'o', 'c', 'k', '-', 'w', 'a', 'r', 'n', 'i', 'n', 'g', '-'] := rfl
  rw [h₁, h₂] at h'
  simp only [List.cons_append, List.nil_append, List.cons.injEq] at h'
  exact absurd h'.2.2.2.2.2.2.1 (by decide)

/-- No start id collides with a warning id. -/
theorem id_start_ne_warning (a b : String) :
    "block-start-" ++ a ≠ "block-warning-" ++ b := by
  intro h
  have h' := congrArg String.data h
  rw [String.data_append, String.data_append] at h'
  have h₁ : "block-start-".data =
      ['b', 'l', 'o', 'c', 'k', '-', 's', 't', 'a', 'r', 't', '-'] := rfl
  have h₂ : "block-warning-".data =
      ['b', 'l', 'o', 'c', 'k', '-', 'w', 'a', 'r', 'n', 'i', 'n', 'g', '-'] := rfl
  rw [h₁, h₂] at h'
  simp only [List.cons_append, List.nil_append, List.cons.injEq] at h'
  exact absurd h'.2.2.2.2.2.2.1 (by decide)

/-- No warning id collides with a start id. -/
theorem id_warning_ne_start (a b : String) :
    "block-warning-" ++ a ≠ "block-start-" ++ b :=
  fun h => id_start_ne_warning b a h.symm

/-- Two prefixed ids agree exactly when their tags and payloads agree. -/
theorem tagPrefix_inj {t₁ t₂ : Nat} (ht₁ : t₁ < 4) (ht₂ : t₂ < 4)
    {a b : String} (h : tagPrefix t₁ ++ a = tagPrefix t₂ ++ b) :
    t₁ = t₂ ∧ a = b := by
  interval_cases t₁ <;> interval_cases t₂ <;> simp only [tagPrefix] at h <;>
    norm_num at h <;>
    first
      | exact ⟨rfl, string_append_left_cancel h⟩
      | exact absurd h (id_wrap_ne_end a b)
      | exact absurd h (id_wrap_ne_start a b)
      | exact absurd h (id_wrap_ne_warning a b)
      | exact absurd h (id_end_ne_start a b)
      | exact absurd h (id_end_ne_warning a b)
      | exact absurd h (id_start_ne_warning a b)
      | exact absurd h.symm (id_wrap_ne_end b a)
      | exact absurd h.symm (id_wrap_ne_start b a)
      | exact absurd h.symm (id_wrap_ne_warning b a)
      | exact absurd h.symm (id_end_ne_start b a)
      | exact absurd h.symm (id_end_ne_warning b a)
      | exact absurd h.symm (id_start_ne_warning b a)

/-- A single loop iteration never reuses an id: its (at most three) intents
carry pairwise distinct prefixes. -/
theorem notifyBlock_ids_nodup (lead : Int) (date : Option String) (now : Time)
    (b : TimeBlockInstance) (next : Option TimeBlockInstance) :
    ((notifyBlock lead date now b next).map (·.id)).Nodup := by
  rcases next with _ | nb <;> simp only [notifyBlock] <;> repeat' split
  all_goals
    simp [mkWrap, mkStart, mkEnd, mkWarning, id_wrap_ne_start,
      id_end_ne_warning, id_end_ne_start, id_start_ne_warning,
      id_warning_ne_start]

/-- With early warning enabled, every id a single iteration emits is either a
wrap/end id minted from the block's own id, or a start/warning id minted from
the successor's id (the bare-start branch for contiguous blocks is
unreachable when `0 < lead`). -/
theorem mem_notifyBlock_id_shape (lead : Int) (date : Option String)
    (now : Time) (b : TimeBlockInstance) (next : Option TimeBlockInstance)
    (hlead : 0 < lead) {n : NotificationQueue}
    (hn : n ∈ notifyBlock lead date now b next) :
    (∃ t, t < 2 ∧ n.id = tagPrefix t ++ b.id) ∨
    (∃ nb, next = some nb ∧ ∃ t, 2 ≤ t ∧ t < 4 ∧
      n.id = tagPrefix t ++ nb.id) := by
  rcases next with _ | nb <;> simp only [notifyBlock] at hn
  · split at hn
    · simp at hn
    · split at hn
      · obtain ⟨-, rfl⟩ := mem_ite_singleton hn
        exact Or.inl ⟨1, by omega, by simp [tagPrefix, mkEnd]⟩
      · simp at hn
  · split at hn
    · simp at hn
    · split at hn
      · rcases List.mem_append.mp hn with h | h
        · obtain ⟨-, rfl⟩ := mem_ite_singleton h
          exact Or.inl ⟨0, by omega, by simp [tagPrefix, mkWrap]⟩
        · obtain ⟨-, rfl⟩ := mem_ite_singleton h
          exact Or.inr ⟨nb, rfl, 2, by omega, by omega,
            by simp [tagPrefix, mkStart]⟩
      · split at hn
        · rcases List.mem_append.mp hn with h | h
          · rcases List.mem_append.mp h with h' | h'
            · obtain ⟨-, rfl⟩ := mem_ite_singleton h'
              exact Or.inl ⟨1, by omega, by simp [tagPrefix, mkEnd]⟩
            · split at h'
              · simp only [List.mem_singleton] at h'
                subst h'
                exact Or.inr ⟨nb, rfl, 3, by omega, by omega,
                  by simp [tagPrefix, mkWarning]⟩
              · simp at h'
          · obtain ⟨-, rfl⟩ := mem_ite_singleton h
            exact Or.inr ⟨nb, rfl, 2, by omega, by omega,
              by simp [tagPrefix, mkStart]⟩
        · split at hn
          · rename_i h₁ h₂ hcond
            have hcontig : b.endTime = nb.start := by
              by_contra hc
              exact h₂ ⟨hc, hcond⟩
            exact absurd ⟨hcontig, hlead, hcond⟩ h₁
          · simp at hn

/-- Lifting of `mem_notifyBlock_id_shape` over the list: wrap/end ids come
from blocks of the list, start/warning ids from blocks of its tail. -/
theorem mem_scheduleAux_id_shape (lead : Int) (date : Option String)
    (now : Time) (hlead : 0 < lead) (l : List TimeBlockInstance)
    {n : NotificationQueue} (hn : n ∈ scheduleAux lead date now l) :
    (∃ c ∈ l, ∃ t, t < 2 ∧ n.id = tagPrefix t ++ c.id) ∨
    (∃ c ∈ l.tail, ∃ t, 2 ≤ t ∧ t < 4 ∧ n.id = tagPrefix t ++ c.id) := by
  induction l with
  | nil => simp [scheduleAux] at hn
  | cons b rest ih =>
    rw [scheduleAux, List.mem_append] at hn
    rcases hn with hn | hn
    · rcases mem_notifyBlock_id_shape lead date now b rest.head? hlead hn with
        ⟨t, ht, hid⟩ | ⟨nb, hnb, t, ht₂, ht₄, hid⟩
      · exact Or.inl ⟨b, List.mem_cons_self b rest, t, ht, hid⟩
      · have hmem : nb ∈ rest := by
          rcases rest with _ | ⟨r, rs⟩
          · simp at hnb
          · simp only [List.head?_cons, Option.some.injEq] at hnb
            exact hnb ▸ List.mem_cons_self r rs
        exact Or.inr ⟨nb, by simpa using hmem, t, ht₂, ht₄, hid⟩
    · rcases ih hn with ⟨c, hc, hrest⟩ | ⟨c, hc, hrest⟩
      · exact Or.inl ⟨c, List.mem_cons_of_mem b hc, hrest⟩
      · refine Or.inr ⟨c, ?_, hrest⟩
        have : c ∈ rest := by
          rcases rest with _ | ⟨r, rs⟩
          · simp at hc
          · exact List.mem_cons_of_mem r (by simpa using hc)
        simpa using this

/-- Claim C8, as stated, is false on the code: with early warning disabled
(lead 0), the gap pair `A(09:00–09:50)`, `C(10:00–10:50)` followed by the
contiguous `D(10:50–11:40)` makes block `A` emit `block-start-C` on its
non-contiguous branch and block `C` emit `block-start-C` again on its
contiguous-without-early-warning branch — two intents of one batch share an
id even though the input block ids are pairwise distinct. -/
theorem claim8_counterexample :
    (([blockA, blockC, blockD].map (·.id)).Nodup) ∧
    ¬ ((scheduleBlockNotifications [blockA, blockC, blockD] 0
        (some "2024-06-01") (hm 8 0)).map (·.id)).Nodup := by
  refine ⟨by decide, by decide⟩

/-- Claim C8 amended: each intent id is deterministically minted from a site
tag (wrap/end/start/warning) and a block id, and whenever early warning is
enabled (`0 < lead`) and the input block ids are pairwise distinct, the ids
of a derived batch are pairwise distinct (re-derivation reproducibility is
`claim9_deterministic`; the duplicate of the counterexample needs `lead = 0`). -/
theorem claim8_amended (blocks : List TimeBlockInstance) (lead : Int)
    (date : Option String) (now : Time) (hlead : 0 < lead)
    (hids : (blocks.map (·.id)).Nodup) :
    ((scheduleBlockNotifications blocks lead date now).map (·.id)).Nodup := by
  induction blocks with
  | nil => simp [scheduleBlockNotifications, scheduleAux]
  | cons b rest ih =>
    simp only [List.map_cons, List.nodup_cons] at hids
    obtain ⟨hb, hrest⟩ := hids
    simp only [scheduleBlockNotifications, scheduleAux] at *
    rw [List.map_append, List.nodup_append]
    refine ⟨notifyBlock_ids_nodup lead date now b rest.head?, ih hrest, ?_⟩
    intro x hx₁ hx₂
    obtain ⟨n, hn, rfl⟩ := List.mem_map.mp hx₁
    obtain ⟨n', hn', hid'⟩ := List.mem_map.mp hx₂
    rcases mem_notifyBlock_id_shape lead date now b rest.head? hlead hn with
      ⟨t, ht, hidn⟩ | ⟨nb, hnb, t, ht₂, ht₄, hidn⟩
    · rcases mem_scheduleAux_id_shape lead date now hlead rest hn' with
        ⟨c, hc, t', ht', hidc⟩ | ⟨c, hc, t', ht₂', ht₄', hidc⟩
      · have heq : tagPrefix t' ++ c.id = tagPrefix t ++ b.id := by
          rw [← hidc, hid', hidn]
        obtain ⟨-, hcb⟩ := tagPrefix_inj (by omega) (by omega) heq
        exact hb (hcb ▸ List.mem_map.mpr ⟨c, hc, rfl⟩)
      · have heq : tagPrefix t' ++ c.id = tagPrefix t ++ b.id := by
          rw [← hidc, hid', hidn]
        obtain ⟨htt, -⟩ := tagPrefix_inj (by omega) (by omega) heq
        omega
    · rcases mem_scheduleAux_id_shape lead date now hlead rest hn' with
        ⟨c, hc, t', ht', hidc⟩ | ⟨c, hc, t', ht₂', ht₄', hidc⟩
      · have heq : tagPrefix t' ++ c.id = tagPrefix t ++ nb.id := by
          rw [← hidc, hid', hidn]
        obtain ⟨htt, -⟩ := tagPrefix_inj (by omega) (by omega) heq
        omega
      · have heq : tagPrefix t' ++ c.id = tagPrefix t ++ nb.id := by
          rw [← hidc, hid', hidn]
        obtain ⟨-, hcnb⟩ := tagPrefix_inj (by omega) (by omega) heq
        rcases rest with _ | ⟨r, rs⟩
        · simp at hnb
        · simp only [List.head?_cons, Option.some.injEq] at hnb
          subst hnb
          simp only [List.tail_cons] at hc
          simp only [List.map_cons, List.nodup_cons] at hrest
          exact hrest.1 (hcnb ▸ List.mem_map.mpr ⟨c, hc, rfl⟩)

/-- Witness for `claim8_amended`: with lead 5 the same three blocks produce
pairwise distinct ids. -/
theorem claim8_amended_witness :
    ((scheduleBlockNotifications [blockA, blockC, blockD] 5
        (some "2024-06-01") (hm 8 0)).map (·.id)).Nodup :=
  claim8_amended [blockA, blockC, blockD] 5 (some "2024-06-01") (hm 8 0)
    (by decide) (by decide)

/-- Claim C9: the deriver is a pure function — calls with equal block lists,
equal lead, equal date and equal `now` produce equal (element-wise identical)
intent lists. -/
theorem claim9_deterministic (blocks₁ blocks₂ : List TimeBlockInstance)
    (lead₁ lead₂ : Int) (date₁ date₂ : Option String) (now₁ now₂ : Time)
    (hb : blocks₁ = blocks₂) (hl : lead₁ = lead₂) (hd : date₁ = date₂)
    (hn : now₁ = now₂) :
    scheduleBlockNotifications blocks₁ lead₁ date₁ now₁ =
      scheduleBlockNotifications blocks₂ lead₂ date₂ now₂ := by
  rw [hb, hl, hd, hn]

/-- Witness for `claim9_deterministic` at the contiguous example input. -/
theorem claim9_deterministic_witness :
    scheduleBlockNotifications [blockA, blockB] 5 (some "2024-06-01") (hm 8 0) =
      scheduleBlockNotifications [blockA, blockB] 5 (some "2024-06-01")
        (hm 8 0) :=
  claim9_deterministic [blockA, blockB] [blockA, blockB] 5 5
    (some "2024-06-01") (some "2024-06-01") (hm 8 0) (hm 8 0) rfl rfl rfl rfl

/-- A decimal digit character evaluates back to its digit. -/
theorem digitChar_toNat {x : Nat} (hx : x ≤ 9) :
    (Char.ofNat (48 + x)).toNat = 48 + x := by
  interval_cases x <;> decide

/-- A decimal digit character is never the colon separator. -/
theorem digitChar_ne_colon {x : Nat} (hx : x ≤ 9) :
    Char.ofNat (48 + x) ≠ ':' := by
  interval_cases x <;> decide

/-- The characters of a two-digit numeral are never the colon separator. -/
theorem pad2_no_colon {n : Nat} (hn : n ≤ 99) :
    ∀ c ∈ (pad2 n).data, c ≠ ':' := by
  intro c hc
  have hd : (pad2 n).data =
      [Char.ofNat (48 + n / 10), Char.ofNat (48 + n % 10)] := rfl
  rw [hd] at hc
  simp only [List.mem_cons, List.not_mem_nil, or_false] at hc
  rcases hc with rfl | rfl
  · exact digitChar_ne_colon (by omega)
  · exact digitChar_ne_colon (by omega)

/-- Splitting a separator-free chunk returns it whole. -/
theorem splitOnCharJs_no_sep {sep : Char} {l : List Char}
    (h : ∀ c ∈ l, c ≠ sep) : splitOnCharJs sep l = [l] := by
  induction l with
  | nil => rfl
  | cons c cs ih =>
    rw [splitOnCharJs, if_neg (h c (List.mem_cons_self c cs)),
      ih fun c' hc' => h c' (List.mem_cons_of_mem c hc')]

/-- Splitting a string of the form `a ++ sep ++ b` with `a` separator-free
peels off `a` as the first chunk. -/
theorem splitOnCharJs_append {sep : Char} {a b : List Char}
    (h : ∀ c ∈ a, c ≠ sep) :
    splitOnCharJs sep (a ++ sep :: b) = a :: splitOnCharJs sep b := by
  induction a with
  | nil => simp [splitOnCharJs]
  | cons c cs ih =>
    rw [List.cons_append, splitOnCharJs, if_neg (h c (List.mem_cons_self c cs)),
      ih fun c' hc' => h c' (List.mem_cons_of_mem c hc')]

/-- `Number` on a two-character digit string. -/
theorem jsNumberDigits_pair (c₁ c₂ : Char) :
    jsNumberDigits ⟨[c₁, c₂]⟩ =
      (c₁.toNat - 48) * 10 + (c₂.toNat - 48) := by
  simp [jsNumberDigits]

/-- `Number` undoes two-digit zero padding. -/
theorem jsNumberDigits_pad2 {n : Nat} (hn : n ≤ 99) :
    jsNumberDigits ⟨(pad2 n).data⟩ = n := by
  have hd : (pad2 n).data =
      [Char.ofNat (48 + n / 10), Char.ofNat (48 + n % 10)] := rfl
  rw [hd, jsNumberDigits_pair, digitChar_toNat (by omega : n / 10 ≤ 9),
    digitChar_toNat (by omega : n % 10 ≤ 9)]
  omega

/-- Arithmetic core of the round trip: re-basing the hour and minute of `t`
onto the day of `d` recovers `t` up to minute truncation. -/
theorem setHours_arith (t d : Nat) (hday : d / 86400000 = t / 86400000)
    (e₁ : t / 3600000 % 24 = t % 86400000 / 3600000)
    (e₂ : t / 60000 % 60 = t % 3600000 / 60000)
    (e₃ : t % 86400000 % 3600000 = t % 3600000)
    (e₄ : t % 3600000 % 60000 = t % 60000) :
    d - d % 86400000 + t / 3600000 % 24 * 3600000 + t / 60000 % 60 * 60000 =
      t - t % 60000 := by
  omega

/-- Claim C10: for every timestamp `t` and every reference point `d` on the
same calendar day, formatting `t` with `dateToTimeString` and re-parsing the
`HH:MM` string against `d` with `timeStringToDate` returns `t` truncated to
minute resolution — formatting is the exact inverse of parsing within a
calendar day. -/
theorem claim10_roundtrip (t d : Nat)
    (hday : d / 86400000 = t / 86400000) :
    timeStringToDate (dateToTimeString t) d = t - t % 60000 := by
  have hh : getHours t < 24 := Nat.mod_lt _ (by norm_num)
  have hm60 : getMinutes t < 60 := Nat.mod_lt _ (by norm_num)
  have hdata : (dateToTimeString t).data =
      (pad2 (getHours t)).data ++ ':' :: (pad2 (getMinutes t)).data := by
    show (pad2 (getHours t) ++ ":" ++ pad2 (getMinutes t)).data = _
    rw [String.data_append, String.data_append]
    simp
  have hsplit : splitOnCharJs ':' (dateToTimeString t).data =
      [(pad2 (getHours t)).data, (pad2 (getMinutes t)).data] := by
    rw [hdata, splitOnCharJs_append (pad2_no_colon (by omega)),
      splitOnCharJs_no_sep (pad2_no_colon (by omega))]
  simp only [timeStringToDate, hsplit, List.map_cons, List.map_nil,
    List.getD_cons_zero, List.getD_cons_succ,
    jsNumberDigits_pad2 (show getHours t ≤ 99 by omega),
    jsNumberDigits_pad2 (show getMinutes t ≤ 99 by omega)]
  simp only [setHoursMs, getHours, getMinutes]
  exact setHours_arith t d hday
    (by rw [← Nat.mod_mul_right_div_self])
    (by rw [← Nat.mod_mul_right_div_self])
    (Nat.mod_mod_of_dvd t (by norm_num))
    (Nat.mod_mod_of_dvd t (by norm_num))

/-- Witness for `claim10_roundtrip`: `09:30:12.345` formatted and re-parsed
against noon of the same day is `09:30:00.000`. -/
theorem claim10_roundtrip_witness :
    timeStringToDate (dateToTimeString 34212345) 43200000 =
      34212345 - 34212345 % 60000 :=
  claim10_roundtrip 34212345 43200000 (by decide)

end TimeDiet
